import Mathlib

/-!
Verification of the xiaohongshu (XHS) publisher core against its design
specification.  The definitions below are a shallow embedding of
src/xiaohongshu/client.py, src/xiaohongshu/components/content_filler.py
and run_publish_cli.py.  Browser (Selenium) effects are modelled as an
explicit event trace; the browser and page state are an environment
record supplied to each operation.  Exceptions raised by driver calls
are modelled by environment flags or by a fail-index into the list of
pending driver operations, following the control flow of the Python
try/except blocks.  Strings are modelled as lists of characters so that
every operation reduces inside the kernel; the Python string operations
used by the source (strip, split, replace, lower, substring membership)
are given structurally recursive definitions with identical semantics.
-/

/-- Python strings, as lists of unicode code points. -/
abbrev Str := List Char

/-- Python s.strip with no argument: drop unicode whitespace from both
ends. -/
def stripStr (s : Str) : Str :=
  ((s.dropWhile Char.isWhitespace).reverse.dropWhile Char.isWhitespace).reverse

/-- needle is a prefix of hay. -/
def startsWithStr : Str → Str → Bool
  | [], _ => true
  | _ :: _, [] => false
  | a :: as, b :: bs => a = b && startsWithStr as bs

/-- Python membership test needle in hay for strings. -/
def hasSub (hay needle : Str) : Bool :=
  match hay with
  | [] => needle.isEmpty
  | _ :: rest => startsWithStr needle hay || hasSub rest needle

/-- Python s.split(sep) for a one-character separator: split on every
occurrence, keeping empty parts. -/
def splitOnChar (c : Char) : Str → List Str
  | [] => [[]]
  | x :: rest =>
      let r := splitOnChar c rest
      if x = c then [] :: r
      else
        match r with
        | h :: t => (x :: h) :: t
        | [] => [[x]]

/-- Python s.replace of the two-character sequence backslash-n by a real
newline, scanning left to right without overlap
(content_filler.py line 351). -/
def unescapeNewlines : Str → Str
  | '\\' :: 'n' :: rest => '\n' :: unescapeNewlines rest
  | c :: rest => c :: unescapeNewlines rest
  | [] => []

/-- Python topic.replace of every hash mark by the empty string
(content_filler.py line 453). -/
def removeHashes (s : Str) : Str :=
  s.filter (fun c => c ≠ '#')

/-- Python s.lower. -/
def lowerStr (s : Str) : Str :=
  s.map Char.toLower

/-- One observable browser-side effect of the publisher. -/
inductive Ev where
  | createDriver
  | navCreatorCenter
  | loadCookies
  | gotoPublishPage
  | findEls (sel : Str)
  | clickEl
  | sendKeys (s : Str)
  | keyEnter
  | keyTab
  | execJS (tag : Str)
  | insertText (s : Str)
  | selectAll
  | keyDelete
  | clearField
  | sendFiles (files : List Str)
  | screenshot
  | warn (msg : Str)
  | initClient
  | publishAttempt (images : List Str)
  | closeDriver
  deriving Repr, DecidableEq

abbrev Trace := List Ev

/-- A located DOM element as the code observes it: display state, enabled
state, tag name, visible text, whether its rect has positive x and y
coordinates, its class attribute and its value attribute. -/
structure Element where
  displayed : Bool := true
  enabled : Bool := true
  tagName : Str := "div".data
  text : Str := []
  rectPos : Bool := true
  classAttr : Str := []
  value : Str := []
  deriving Repr, DecidableEq

/-- XHSNote (models.py): the structured content unit to publish. -/
structure Note where
  title : Str
  content : Str
  topics : List Str := []
  images : List Str := []
  videos : List Str := []
  deriving Repr, DecidableEq

/-- Modelled from the spec: the immutable configuration constants
(XHSConfig in constants.py, which is not under src/): maximum title
length, maximum content length, maximum topic count and maximum topic
length.  The spec names MAX_TOPICS and MAX_TOPIC_LEN but fixes no
numeric values, so the limits are parameters of the development. -/
structure XHSConfigT where
  MAX_TITLE_LENGTH : Nat
  MAX_CONTENT_LENGTH : Nat
  MAX_TOPICS : Nat
  MAX_TOPIC_LENGTH : Nat
  deriving Repr, DecidableEq

/-- PublishError (core/exceptions.py, outside src/): carries a message
and the publish step name, as constructed at every raise site in
client.py and content_filler.py. -/
structure PubErr where
  msg : Str
  step : Str
  deriving Repr, DecidableEq

/-- XHSPublishResult (models.py): success flag, message, note title and
final URL. -/
structure PublishResult where
  success : Bool
  message : Str
  noteTitle : Str
  finalUrl : Str
  deriving Repr, DecidableEq

/-- XHSContentFiller._validate_title: empty or whitespace-only title, or
stripped length over MAX_TITLE_LENGTH, raises a PublishError. -/
def validateTitle (cfg : XHSConfigT) (title : Str) : Option PubErr :=
  if title = [] || stripStr title = [] then
    some ⟨"标题不能为空".data, "标题验证".data⟩
  else if (stripStr title).length > cfg.MAX_TITLE_LENGTH then
    some ⟨"标题长度超限".data, "标题验证".data⟩
  else none

/-- XHSContentFiller._validate_content. -/
def validateContent (cfg : XHSConfigT) (content : Str) : Option PubErr :=
  if content = [] || stripStr content = [] then
    some ⟨"内容不能为空".data, "内容验证".data⟩
  else if (stripStr content).length > cfg.MAX_CONTENT_LENGTH then
    some ⟨"内容长度超限".data, "内容验证".data⟩
  else none

/-- XHSContentFiller._validate_topics: count over MAX_TOPICS, then the
first topic whose length exceeds MAX_TOPIC_LENGTH, raises. -/
def validateTopics (cfg : XHSConfigT) (topics : List Str) : Option PubErr :=
  if topics.length > cfg.MAX_TOPICS then
    some ⟨"话题数量超限".data, "话题验证".data⟩
  else
    match topics.find? (fun t => t.length > cfg.MAX_TOPIC_LENGTH) with
    | some t => some ⟨"话题长度超限: ".data ++ t, "话题验证".data⟩
    | none => none

/-- The content argument of _perform_content_fill: the isinstance(str)
and isinstance(list) branches of the source (any other type returns
False and is not representable here). -/
inductive ContentArg where
  | str (s : Str)
  | list (ps : List Str)
  deriving Repr, DecidableEq

/-- _perform_content_fill step 1, the paragraph split: replace each
literal two-character backslash-n by a real newline, then split on
newline without trimming. -/
def paragraphsOf : ContentArg → List Str
  | .str s => splitOnChar '\n' (unescapeNewlines s)
  | .list ps => ps

/-- _perform_content_fill step 3, the fill loop: for each paragraph,
insert it by one JS insertText when non-empty, and send one Enter unless
it is the last paragraph. -/
def paraOps : List Str → Trace
  | [] => []
  | [p] => if p = [] then [] else [.insertText p]
  | p :: q :: rest =>
      (if p = [] then [] else [.insertText p]) ++ [.keyEnter] ++ paraOps (q :: rest)

/-- Environment of _perform_content_fill: the index of the driver
operation that raises a WebDriver exception, if any. -/
structure ContentFillEnv where
  failK : Option Nat := none
  deriving Repr, DecidableEq

/-- XHSContentFiller._perform_content_fill: clear the editor with click,
select-all and delete, then run the paragraph loop.  Any exception is
caught and the method returns False with the operations performed so
far. -/
def performContentFill (arg : ContentArg) (env : ContentFillEnv) : Bool × Trace :=
  let ops : Trace := [.clickEl, .selectAll, .keyDelete] ++ paraOps (paragraphsOf arg)
  match env.failK with
  | some k => if k < ops.length then (false, ops.take k) else (true, ops)
  | none => (true, ops)

/-- _wait_for_video_upload_complete deadline constant, client.py line 286. -/
def maxWaitTime : Nat := 120

/-- _wait_for_video_upload_complete interval constant, client.py line 287. -/
def checkInterval : Nat := 2

/-- The polling loop of _wait_for_video_upload_complete, while
elapsed < max_wait and the success indicator is not yet observed: check
the indicator at the current elapsed time, return on success, otherwise
sleep the interval and add it to elapsed.  elapsed starts at 0 and grows
by 2 per iteration, so the while loop runs at most
maxWaitTime / checkInterval times; the fuel argument is that remaining
iteration count, making the recursion structural. -/
def pollFrom (obs : Nat → Bool) : Nat → Nat → Bool × Nat
  | 0, elapsed => (false, elapsed)
  | k + 1, elapsed =>
      if obs elapsed then (true, elapsed)
      else pollFrom obs k (elapsed + checkInterval)

/-- XHSClient._wait_for_video_upload_complete: the whole body is inside
try/except, so every outcome (success found, deadline expiry, or an
internal error, which the per-selector handlers absorb into an
unobserved indicator) returns normally and no exception escapes. -/
def waitForVideoUploadComplete (obs : Nat → Bool) : Except PubErr (Bool × Nat) :=
  .ok (pollFrom obs (maxWaitTime / checkInterval) 0)

/-- One topic of the fill_topics loop (content_filler.py lines 452-468):
strip hash marks and whitespace, skip if empty, else type hash, the
topic text, and Enter. -/
def topicOps1 (topic : Str) : Trace :=
  let clean := stripStr (removeHashes topic)
  if clean = [] then [] else [.sendKeys "#".data, .sendKeys clean, .keyEnter]

/-- The per-topic loop of fill_topics. -/
def topicsOps : List Str → Trace
  | [] => []
  | t :: rest => topicOps1 t ++ topicsOps rest


/-- Environment of the element finders in content_filler.py: the result
of each driver query, and the focus state driving the TAB-navigation
fallback of _find_content_editor.  titleWait gives the element produced
by the clickable wait for a title selector (none when the wait times
out or errors); editorDirect gives the find_element result for a direct
editor selector (none when the lookup raises); titleFindEls gives the
find_elements result used to locate the TAB anchor; active1 and active2
are the focused elements after the first and second TAB. -/
structure FindEnv where
  titleWait : Str → Option Element := fun _ => none
  editorDirect : Str → Option Element := fun _ => none
  titleFindEls : Str → List Element := fun _ => []
  focusOk : Bool := true
  active1 : Element := {}
  tab2Ok : Bool := true
  active2 : Element := {}

/-- The direct content-editor selectors, content_filler.py lines 229-234. -/
def directEditorSelectors : List Str :=
  ["[contenteditable=\x27true\x27]".data, ".ql-editor".data,
   "#post-textarea".data, ".c-input_textarea".data]

/-- The selector loop of _find_title_input: for each selector in order,
wait until clickable; on timeout or error continue; on a hit return it
when it is enabled, otherwise fall through to the next selector. -/
def findTitleGo (env : FindEnv) : List Str → Option Element × Trace
  | [] => (none, [])
  | s :: rest =>
      match env.titleWait s with
      | some e =>
          if e.enabled then (some e, [.findEls s])
          else
            let r := findTitleGo env rest
            (r.1, .findEls s :: r.2)
      | none =>
          let r := findTitleGo env rest
          (r.1, .findEls s :: r.2)

/-- XHSContentFiller._find_title_input over the ordered candidate list
(get_title_input_selectors in constants.py, outside src/, passed as a
parameter): returns the first hit, or none. -/
def findTitleInput (titleSelectors : List Str) (env : FindEnv) : Option Element × Trace :=
  findTitleGo env titleSelectors

/-- The direct-selector loop of _find_content_editor (lines 235-242):
find_element per selector, return the first element that is displayed;
lookups that raise or find a non-displayed element fall through. -/
def findDirectGo (env : FindEnv) : List Str → Option Element × Trace
  | [] => (none, [])
  | s :: rest =>
      match env.editorDirect s with
      | some e =>
          if e.displayed then (some e, [.findEls s])
          else
            let r := findDirectGo env rest
            (r.1, .findEls s :: r.2)
      | none =>
          let r := findDirectGo env rest
          (r.1, .findEls s :: r.2)

/-- The anchor search of the TAB strategy (lines 251-263): for each
title selector, find_elements and take the first displayed element. -/
def findAnchorGo (env : FindEnv) : List Str → Option Element × Trace
  | [] => (none, [])
  | s :: rest =>
      match (env.titleFindEls s).find? (fun e => e.displayed) with
      | some e => (some e, [.findEls s])
      | none =>
          let r := findAnchorGo env rest
          (r.1, .findEls s :: r.2)

/-- XHSContentFiller._find_content_editor: first the direct selectors
(displayed check only); on failure the TAB-navigation strategy: locate a
displayed title anchor, JS-focus it, send TAB and adopt the newly
focused element when its tag is not input; if it still is input, send
one more TAB and test once more; otherwise give up with none.  Any
exception inside the TAB strategy (focusOk, tab2Ok false) is caught and
the function returns none. -/
def findContentEditor (titleSelectors : List Str) (env : FindEnv) : Option Element × Trace :=
  let d := findDirectGo env directEditorSelectors
  match d.1 with
  | some e => (some e, d.2)
  | none =>
      let a := findAnchorGo env titleSelectors
      match a.1 with
      | none => (none, d.2 ++ a.2)
      | some _ =>
          if env.focusOk then
            let base := d.2 ++ a.2 ++ [.execJS "focus".data, .keyTab]
            if lowerStr env.active1.tagName ≠ "input".data then
              (some env.active1, base)
            else if env.tab2Ok then
              if lowerStr env.active2.tagName ≠ "input".data then
                (some env.active2, base ++ [.keyTab])
              else (none, base ++ [.keyTab])
            else (none, base)
          else (none, d.2 ++ a.2)

/-- Environment of _perform_title_fill: whether clear and send_keys
succeed, and the value the field reports afterwards (the get_attribute
value, or the element text when that is falsy). -/
structure TitleFillEnv where
  clearOk : Bool := true
  sendOk : Bool := true
  valueAfter : Str := []

/-- XHSContentFiller._perform_title_fill: clear, send the cleaned
title, then read the value back; succeed when the cleaned title occurs
in it or it is non-empty.  Exceptions return False. -/
def performTitleFill (cleanText : Str → Str) (title : Str) (env : TitleFillEnv) : Bool × Trace :=
  if env.clearOk then
    if env.sendOk then
      let c := cleanText title
      (hasSub env.valueAfter c || env.valueAfter.length > 0, [.clearField, .sendKeys c])
    else (false, [.clearField])
  else (false, [])

/-- XHSContentFiller.fill_title: validate, find the title input, fill.
A PublishError (from validation or a missing input) propagates; any
other failure returns False.  clean_text_for_browser lives in
utils/text_utils.py outside src/ and is a parameter. -/
def fillTitle (cfg : XHSConfigT) (titleSelectors : List Str) (cleanText : Str → Str)
    (title : Str) (fenv : FindEnv) (tenv : TitleFillEnv) : Except PubErr Bool × Trace :=
  match validateTitle cfg title with
  | some e => (.error e, [])
  | none =>
      let f := findTitleInput titleSelectors fenv
      match f.1 with
      | none => (.error ⟨"未找到标题输入框".data, "标题填写".data⟩, f.2)
      | some _ =>
          let p := performTitleFill cleanText title tenv
          (.ok p.1, f.2 ++ p.2)

/-- XHSContentFiller.fill_content: validate, find the content editor,
fill.  A PublishError propagates; other failures return False. -/
def fillContent (cfg : XHSConfigT) (titleSelectors : List Str) (content : Str)
    (fenv : FindEnv) (cenv : ContentFillEnv) : Except PubErr Bool × Trace :=
  match validateContent cfg content with
  | some e => (.error e, [])
  | none =>
      let f := findContentEditor titleSelectors fenv
      match f.1 with
      | none => (.error ⟨"未找到内容编辑器".data, "内容填写".data⟩, f.2)
      | some _ =>
          let p := performContentFill (.str content) cenv
          (.ok p.1, f.2 ++ p.2)

/-- Environment of the effective fill_topics: the shared finder state
and the index of the driver operation after editor lookup that raises,
if any. -/
structure TopicsEnv where
  find : FindEnv := {}
  failK : Option Nat := none

/-- The effective XHSContentFiller.fill_topics (content_filler.py lines
391-474, the second definition of the name in the class body, which in
Python replaces the first): empty list returns True at once; otherwise
re-find the content editor (False when missing), click it, move the
cursor to the end via the JS Range script, send two Enters, then run the
per-topic loop.  It performs no validation.  Any exception is caught,
logged, and the method returns True. -/
def fillTopics (titleSelectors : List Str) (topics : List Str) (env : TopicsEnv) : Bool × Trace :=
  if topics = [] then (true, [])
  else
    let f := findContentEditor titleSelectors env.find
    match f.1 with
    | none => (false, f.2)
    | some _ =>
        let ops : Trace :=
          [.clickEl, .execJS "moveCursorEnd".data, .keyEnter, .keyEnter] ++ topicsOps topics
        match env.failK with
        | some k => if k < ops.length then (true, f.2 ++ ops.take k) else (true, f.2 ++ ops)
        | none => (true, f.2 ++ ops)

/-- The first, shadowed definition of fill_topics (content_filler.py
lines 100-127): it validates the topics and catches every exception,
returning False.  Because the class body later rebinds the name, this
definition is dead code; moreover its success branch calls the method
_perform_topics_automation which does not exist in the class, so even a
validated call would raise AttributeError, be caught, and return False
without any browser effect. -/
def fillTopicsShadowed (cfg : XHSConfigT) (topics : List Str) : Bool × Trace :=
  match validateTopics cfg topics with
  | some _ => (false, [])
  | none => (false, [])

/-- Environment of _switch_publish_mode: the find_elements result for
the creator-tab selector (an empty list also covers a raising lookup,
which the method absorbs) and whether clicking the chosen tab succeeds
(a click exception is absorbed with a warning). -/
structure ModeEnv where
  tabs : List Element := []
  clickOk : Bool := true

/-- XHSClient._switch_publish_mode: with images, click the first
displayed on-screen tab whose text contains the image-mode label; with
only videos, the video-mode label, skipped when that tab is already
active.  Every failure is absorbed; the method never raises. -/
def switchPublishMode (note : Note) (env : ModeEnv) : Trace :=
  if !note.images.isEmpty then
    match env.tabs.find? (fun t => t.displayed && hasSub t.text "上传图文".data && t.rectPos) with
    | some _ =>
        if env.clickOk then [.findEls ".creator-tab".data, .clickEl]
        else [.findEls ".creator-tab".data]
    | none => [.findEls ".creator-tab".data]
  else if !note.videos.isEmpty then
    match env.tabs.find? (fun t => t.displayed && hasSub t.text "上传视频".data && t.rectPos) with
    | some t =>
        if !hasSub t.classAttr "active".data then
          if env.clickOk then [.findEls ".creator-tab".data, .clickEl]
          else [.findEls ".creator-tab".data]
        else [.findEls ".creator-tab".data]
    | none => [.findEls ".creator-tab".data]
  else []

/-- Environment of _handle_file_upload: the find_elements result per
upload selector (empty also covers a raising lookup, absorbed by the
per-selector except), the XPath fallback result, whether sending the
file paths succeeds, and the video success-indicator observations
driving the upload poll. -/
structure UploadEnv where
  findBySel : Str → List Element := fun _ => []
  xpathFind : Option Element := none
  sendOk : Bool := true
  obs : Nat → Bool := fun _ => false

/-- The upload-control selectors, client.py lines 219-227. -/
def uploadSelectors : List Str :=
  [".upload-input".data, "input[type=\x27file\x27]".data,
   "[class*=\x27upload\x27][type=\x27file\x27]".data, ".file-input".data,
   ".uploader-input".data, "[accept*=\x27image\x27]".data, "[accept*=\x27video\x27]".data]

/-- The upload-selector loop (lines 230-241): per selector, the first
displayed element wins. -/
def uploadScan (env : UploadEnv) : List Str → Option Element × Trace
  | [] => (none, [])
  | s :: rest =>
      match (env.findBySel s).find? (fun e => e.displayed) with
      | some e => (some e, [.findEls s])
      | none =>
          let r := uploadScan env rest
          (r.1, .findEls s :: r.2)

/-- XHSClient._handle_file_upload: merge images and videos, locate the
upload control (CSS selectors, then the XPath fallback; a miss logs and
returns), send all paths in one send_keys, then wait: the bounded video
poll when a video is present (its observations come from env.obs and it
emits no driver writes), otherwise a fixed settle delay.  The whole body
is inside try/except, so no exception escapes. -/
def handleFileUpload (note : Note) (env : UploadEnv) : Trace :=
  let files := note.images ++ note.videos
  if files.isEmpty then []
  else
    let scan := uploadScan env uploadSelectors
    match scan.1 with
    | some _ =>
        if env.sendOk then scan.2 ++ [.sendFiles files] else scan.2
    | none =>
        let t2 := scan.2 ++ [.findEls "//input[@type=\x27file\x27]".data]
        match env.xpathFind with
        | none => t2
        | some _ => if env.sendOk then t2 ++ [.sendFiles files] else t2

/-- XHSClient._fill_note_content: fill the title (a False return raises
a PublishError), fill the body (same), then fill the topics when the
note has any, ignoring the result of fill_topics. -/
def fillNoteContent (cfg : XHSConfigT) (ts : List Str) (cleanText : Str → Str) (note : Note)
    (fenv : FindEnv) (tenv : TitleFillEnv) (cenv : ContentFillEnv) (topEnv : TopicsEnv) :
    Except PubErr Unit × Trace :=
  let ft := fillTitle cfg ts cleanText note.title fenv tenv
  match ft.1 with
  | .error e => (.error e, ft.2)
  | .ok false => (.error ⟨"标题填写失败".data, "填写标题".data⟩, ft.2)
  | .ok true =>
      let fc := fillContent cfg ts note.content fenv cenv
      match fc.1 with
      | .error e => (.error e, ft.2 ++ fc.2)
      | .ok false => (.error ⟨"内容填写失败".data, "填写内容".data⟩, ft.2 ++ fc.2)
      | .ok true =>
          if note.topics.isEmpty then (.ok (), ft.2 ++ fc.2)
          else
            let tp := fillTopics ts note.topics topEnv
            (.ok (), ft.2 ++ fc.2 ++ tp.2)

/-- Environment of _submit_note: the find_element result per publish
selector (none models the NoSuchElement exception, absorbed by the bare
except), whether the click succeeds, and the page URL read afterwards. -/
structure SubmitEnv where
  findSel : Str → Option Element := fun _ => none
  clickOk : Bool := true
  finalUrl : Str := []

/-- The publish-button selectors, client.py lines 364-370. -/
def publishSelectors : List Str :=
  [".publishBtn".data, "[class*=\x27publish\x27]".data, "button[type=\x27submit\x27]".data,
   "//button[contains(text(), \x27发布\x27)]".data, "//button[contains(text(), \x27提交\x27)]".data]

/-- The submit-button loop (lines 373-384): find_element per selector;
break on a displayed and enabled hit, but keep the last element found
even when it failed the check, exactly as the Python variable does. -/
def submitScanGo (env : SubmitEnv) (cur : Option Element) : List Str → Option Element × Trace
  | [] => (cur, [])
  | s :: rest =>
      match env.findSel s with
      | none =>
          let r := submitScanGo env cur rest
          (r.1, .findEls s :: r.2)
      | some e =>
          if e.displayed && e.enabled then (some e, [.findEls s])
          else
            let r := submitScanGo env (some e) rest
            (r.1, .findEls s :: r.2)

/-- XHSClient._submit_note: scan for the button, click it, read the URL
and build the success result.  Every exception inside, including the
PublishError raised when no button was found, is re-wrapped by the
except clause into a PublishError with step 提交发布. -/
def submitNote (note : Note) (env : SubmitEnv) : Except PubErr PublishResult × Trace :=
  let scan := submitScanGo env none publishSelectors
  match scan.1 with
  | none => (.error ⟨"点击发布按钮失败: 无法找到发布按钮".data, "提交发布".data⟩, scan.2)
  | some _ =>
      if env.clickOk then
        (.ok { success := true, message := "笔记发布成功！标题: ".data ++ note.title,
               noteTitle := note.title, finalUrl := env.finalUrl },
         scan.2 ++ [.clickEl])
      else (.error ⟨"点击发布按钮失败".data, "提交发布".data⟩, scan.2)

/-- Environment of _publish_note_process: whether driver.get succeeds,
whether the current URL contains publish afterwards, and the
environments of each delegated step. -/
structure ProcEnv where
  gotoOk : Bool := true
  urlHasPublish : Bool := true
  mode : ModeEnv := {}
  upload : UploadEnv := {}
  find : FindEnv := {}
  titleFill : TitleFillEnv := {}
  contentFill : ContentFillEnv := {}
  topicsFailK : Option Nat := none
  submit : SubmitEnv := {}

/-- XHSClient._publish_note_process: open the publish page, check the
URL, switch mode, upload, fill, submit.  On any exception a screenshot
is taken; a PublishError is re-raised as is, anything else is wrapped
with step 流程执行. -/
def publishNoteProcess (cfg : XHSConfigT) (ts : List Str) (cleanText : Str → Str)
    (note : Note) (env : ProcEnv) : Except PubErr PublishResult × Trace :=
  if env.gotoOk then
    if env.urlHasPublish then
      let t1 : Trace := [.gotoPublishPage] ++ switchPublishMode note env.mode
                          ++ handleFileUpload note env.upload
      let fill := fillNoteContent cfg ts cleanText note env.find env.titleFill env.contentFill
                    { find := env.find, failK := env.topicsFailK }
      match fill.1 with
      | .error e => (.error e, t1 ++ fill.2 ++ [.screenshot])
      | .ok _ =>
          let sub := submitNote note env.submit
          match sub.1 with
          | .error e => (.error e, t1 ++ fill.2 ++ sub.2 ++ [.screenshot])
          | .ok r => (.ok r, t1 ++ fill.2 ++ sub.2)
    else
      (.error ⟨"无法访问发布页面，可能需要重新登录".data, "页面访问".data⟩,
       [.gotoPublishPage, .screenshot])
  else
    (.error ⟨"发布流程执行失败".data, "流程执行".data⟩, [.screenshot])

/-- Environment of publish_note: whether driver creation, the
navigation to the creator center and the cookie loading succeed
(ChromeDriverManager and CookieManager live in core/ and auth/ outside
src/ and are modelled as abstract fallible effects), plus the process
environment. -/
structure ClientEnv where
  createOk : Bool := true
  navOk : Bool := true
  cookiesOk : Bool := true
  proc : ProcEnv := {}

/-- XHSClient.publish_note: create the driver, navigate, load cookies,
run the publish process.  The except clause re-raises a PublishError
unchanged and wraps anything else with step 初始化; the finally clause
closes the driver on every exit path.  The handle_exception decorator
(core/exceptions.py, outside src/) is not modelled: per the spec it only
maps the raised error to the failed result returned to the caller. -/
def publishNote (cfg : XHSConfigT) (ts : List Str) (cleanText : Str → Str)
    (note : Note) (env : ClientEnv) : Except PubErr PublishResult × Trace :=
  if env.createOk then
    if env.navOk then
      if env.cookiesOk then
        let p := publishNoteProcess cfg ts cleanText note env.proc
        (p.1, [.createDriver, .navCreatorCenter, .loadCookies] ++ p.2 ++ [.closeDriver])
      else
        (.error ⟨"发布笔记过程出错: cookies".data, "初始化".data⟩,
         [.createDriver, .navCreatorCenter, .closeDriver])
    else
      (.error ⟨"发布笔记过程出错: navigate".data, "初始化".data⟩,
       [.createDriver, .closeDriver])
  else
    (.error ⟨"发布笔记过程出错: create driver".data, "初始化".data⟩, [.closeDriver])

/-- The JSON payload read by run_publish_cli.publish_task. -/
structure CliData where
  title : Str := []
  content : Str := []
  topics : List Str := []

/-- Environment of run_publish_cli.publish_task: whether the JSON file
exists, its parsed payload (none models a parse failure), which paths
exist on disk, and whether client construction succeeds. -/
structure CliEnv where
  jsonExists : Bool := true
  jsonData : Option CliData := some {}
  pathExists : Str → Bool := fun _ => true
  clientInitOk : Bool := true

/-- run_publish_cli.publish_task: read and parse the JSON, require
title and content, drop each image path that does not exist with a
warning, abort when no valid image remains, construct the client, build
the note from the valid images only and call publish_note (the browser
is only ever launched inside that call, recorded as publishAttempt). -/
def publishTask (env : CliEnv) (imagePaths : List Str) : Trace :=
  if !env.jsonExists then [.warn "找不到 JSON 文件".data]
  else
    match env.jsonData with
    | none => [.warn "JSON 解析失败".data]
    | some d =>
        if d.title = [] || d.content = [] then [.warn "JSON 中缺少 title 或 content".data]
        else
          let valid := imagePaths.filter (fun p => env.pathExists p)
          let warns : Trace := (imagePaths.filter (fun p => !env.pathExists p)).map
              (fun p => .warn ("图片不存在，跳过: ".data ++ p))
          if valid.isEmpty then warns ++ [.warn "没有有效的图片可发布".data]
          else if !env.clientInitOk then warns ++ [.warn "客户端初始化失败".data]
          else warns ++ [.initClient, .publishAttempt valid]

/-- C4: the body 第一行 newline newline 第三行 splits on line breaks
without trimming into the three paragraphs 第一行, empty, 第三行, and the
fill loop renders them with exactly two Enter operations and exactly two
text insertions, the empty middle paragraph contributing only a line
break, with no Enter after the last paragraph. -/
theorem c4_body_split_and_render :
    paragraphsOf (.str "第一行\n\n第三行".data) = ["第一行".data, [], "第三行".data]
    ∧ performContentFill (.str "第一行\n\n第三行".data) {} =
        (true, [.clickEl, .selectAll, .keyDelete,
                .insertText "第一行".data, .keyEnter, .keyEnter, .insertText "第三行".data])
    ∧ (paraOps (paragraphsOf (.str "第一行\n\n第三行".data))).count .keyEnter = 2
    ∧ (paraOps (paragraphsOf (.str "第一行\n\n第三行".data))).countP
        (fun e => match e with | .insertText _ => true | _ => false) = 2
    ∧ (paraOps (paragraphsOf (.str "第一行\n\n第三行".data))).getLast? ≠ some .keyEnter := by
  decide

/-- C10: before splitting, the body fill replaces every literal
two-character backslash-n sequence by a real newline, so such a sequence
is rendered as a line break, never as literal text. -/
theorem c10_backslash_n_is_line_break :
    unescapeNewlines "a\\nb".data = "a\nb".data
    ∧ paragraphsOf (.str "a\\nb".data) = ["a".data, "b".data]
    ∧ paragraphsOf (.str "第一行\\n\\n第三行".data) = ["第一行".data, [], "第三行".data]
    ∧ paraOps (paragraphsOf (.str "a\\nb".data)) =
        [.insertText "a".data, .keyEnter, .insertText "b".data] := by
  decide

/-- Concrete configuration for the C2 divergence: topic length limit 10. -/
def cfgC2 : XHSConfigT := ⟨20, 1000, 10, 10⟩

/-- A topic of length 11, one over the limit of cfgC2. -/
def topicC2 : Str := "12345678901".data

/-- Environment for C2: a displayed content editor behind the first
direct selector. -/
def envC2 : TopicsEnv :=
  { find := { editorDirect := fun s =>
      if s = "[contenteditable=\x27true\x27]".data then some {} else none } }

/-- C2: the effective fill_topics performs no validation at all.  For a
topic one character over MAX_TOPIC_LENGTH, _validate_topics would raise
a validation PublishError, and the first, shadowed definition of
fill_topics would return False with no browser effect; but the second
definition of fill_topics, the one Python actually binds, starts with a
DOM element lookup and runs the whole topic loop, returning True.  The
claimed validation-before-DOM behaviour is dead code. -/
theorem c2_fill_topics_skips_validation :
    validateTopics cfgC2 [topicC2] = some ⟨"话题长度超限: ".data ++ topicC2, "话题验证".data⟩
    ∧ (fillTopics [] [topicC2] envC2).1 = true
    ∧ (fillTopics [] [topicC2] envC2).2.head? =
        some (.findEls "[contenteditable=\x27true\x27]".data)
    ∧ (fillTopics [] [topicC2] envC2).2.count .keyTab = 0
    ∧ fillTopicsShadowed cfgC2 [topicC2] = (false, []) := by
  decide

/-- The poll never runs past its deadline: after k remaining iterations
starting at elapsed, the final elapsed is at most elapsed plus the
interval times k. -/
theorem pollFrom_le (obs : Nat → Bool) :
    ∀ k e, (pollFrom obs k e).2 ≤ e + checkInterval * k := by
  intro k
  induction k with
  | zero => intro e; simp [pollFrom]
  | succ n ih =>
      intro e
      simp only [pollFrom]
      by_cases h : obs e = true
      · simp [h]
      · rw [if_neg h]
        calc (pollFrom obs n (e + checkInterval)).2
            ≤ e + checkInterval + checkInterval * n := ih (e + checkInterval)
          _ = e + checkInterval * (n + 1) := by ring

/-- When the indicator never appears, the poll runs all its iterations
and stops exactly at the deadline. -/
theorem pollFrom_never (obs : Nat → Bool) (h : ∀ t, obs t = false) :
    ∀ k e, pollFrom obs k e = (false, e + checkInterval * k) := by
  intro k
  induction k with
  | zero => intro e; simp [pollFrom]
  | succ n ih =>
      intro e
      simp only [pollFrom, h e, Bool.false_eq_true, if_false]
      rw [ih (e + checkInterval)]
      have he : e + checkInterval + checkInterval * n = e + checkInterval * (n + 1) := by
        ring
      rw [he]

/-- C6: the video-upload completion poll with interval 2 and deadline
120 terminates for every observation sequence: the final elapsed time
never exceeds 120; with no indicator ever displayed it stops exactly at
120 and _wait_for_video_upload_complete still returns normally; and as
soon as the indicator is observed the loop returns at once with the
current elapsed time. -/
theorem c6_upload_poll_terminates (obs : Nat → Bool) :
    (pollFrom obs (maxWaitTime / checkInterval) 0).2 ≤ maxWaitTime
    ∧ ((∀ t, obs t = false) → pollFrom obs (maxWaitTime / checkInterval) 0 = (false, maxWaitTime))
    ∧ (∀ k e, obs e = true → pollFrom obs (k + 1) e = (true, e))
    ∧ waitForVideoUploadComplete obs = .ok (pollFrom obs (maxWaitTime / checkInterval) 0) := by
  refine ⟨?_, ?_, ?_, rfl⟩
  · have h := pollFrom_le obs (maxWaitTime / checkInterval) 0
    simpa [maxWaitTime, checkInterval] using h
  · intro h
    have h2 := pollFrom_never obs h (maxWaitTime / checkInterval) 0
    simpa [maxWaitTime, checkInterval] using h2
  · intro k e h
    simp [pollFrom, h]

/-- Witness for C6: with the indicator never displayed the poll ends at
elapsed 120 with no success; with the indicator displayed from the start
it returns immediately at elapsed 0. -/
theorem c6_upload_poll_terminates_witness :
    pollFrom (fun _ => false) (maxWaitTime / checkInterval) 0 = (false, maxWaitTime)
    ∧ pollFrom (fun _ => true) (0 + 1) 0 = (true, 0) := by
  refine ⟨?_, ?_⟩
  · exact (c6_upload_poll_terminates (fun _ => false)).2.1 (fun t => rfl)
  · exact (c6_upload_poll_terminates (fun _ => true)).2.2.1 0 0 rfl

/-- Every event of the title-selector loop is an element lookup. -/
theorem events_findTitleGo (env : FindEnv) :
    ∀ ss, ∀ e ∈ (findTitleGo env ss).2, ∃ s, e = Ev.findEls s := by
  intro ss
  induction ss with
  | nil => intro e he; simp [findTitleGo] at he
  | cons s rest ih =>
      intro e he
      simp only [findTitleGo] at he
      cases h : env.titleWait s with
      | some el =>
          rw [h] at he
          by_cases hd : el.enabled = true
          · simp [hd] at he
            exact ⟨s, he⟩
          · simp [hd] at he
            rcases he with he | he
            · exact ⟨s, he⟩
            · exact ih e he
      | none =>
          rw [h] at he
          simp at he
          rcases he with he | he
          · exact ⟨s, he⟩
          · exact ih e he

/-- Every event of the direct editor-selector loop is an element lookup. -/
theorem events_findDirectGo (env : FindEnv) :
    ∀ ss, ∀ e ∈ (findDirectGo env ss).2, ∃ s, e = Ev.findEls s := by
  intro ss
  induction ss with
  | nil => intro e he; simp [findDirectGo] at he
  | cons s rest ih =>
      intro e he
      simp only [findDirectGo] at he
      cases h : env.editorDirect s with
      | some el =>
          rw [h] at he
          by_cases hd : el.displayed = true
          · simp [hd] at he
            exact ⟨s, he⟩
          · simp [hd] at he
            rcases he with he | he
            · exact ⟨s, he⟩
            · exact ih e he
      | none =>
          rw [h] at he
          simp at he
          rcases he with he | he
          · exact ⟨s, he⟩
          · exact ih e he

/-- Every event of the TAB-anchor search is an element lookup. -/
theorem events_findAnchorGo (env : FindEnv) :
    ∀ ss, ∀ e ∈ (findAnchorGo env ss).2, ∃ s, e = Ev.findEls s := by
  intro ss
  induction ss with
  | nil => intro e he; simp [findAnchorGo] at he
  | cons s rest ih =>
      intro e he
      simp only [findAnchorGo] at he
      cases h : (env.titleFindEls s).find? (fun el => el.displayed) with
      | some el =>
          rw [h] at he
          simp at he
          exact ⟨s, he⟩
      | none =>
          rw [h] at he
          simp at he
          rcases he with he | he
          · exact ⟨s, he⟩
          · exact ih e he

/-- An event list made only of element lookups contains no given
non-lookup event. -/
theorem not_mem_of_events {t : Trace} (h : ∀ e ∈ t, ∃ s, e = Ev.findEls s) {x : Ev}
    (hx : ∀ s, x ≠ Ev.findEls s) : x ∉ t := by
  intro hm
  rcases h x hm with ⟨s, rfl⟩
  exact hx s rfl

/-- The direct editor-selector loop sends no TAB. -/
theorem count_keyTab_findDirectGo (env : FindEnv) (ss : List Str) :
    ((findDirectGo env ss).2).count Ev.keyTab = 0 :=
  List.count_eq_zero.mpr
    (not_mem_of_events (events_findDirectGo env ss) (fun s h => by cases h))

/-- The TAB-anchor search sends no TAB. -/
theorem count_keyTab_findAnchorGo (env : FindEnv) (ss : List Str) :
    ((findAnchorGo env ss).2).count Ev.keyTab = 0 :=
  List.count_eq_zero.mpr
    (not_mem_of_events (events_findAnchorGo env ss) (fun s h => by cases h))

/-- The content-editor resolution sends at most two TABs, whichever
branch it takes. -/
theorem findContentEditor_tab_bound (ts : List Str) (env : FindEnv) :
    ((findContentEditor ts env).2).count Ev.keyTab ≤ 2 := by
  have hd := count_keyTab_findDirectGo env directEditorSelectors
  have ha := count_keyTab_findAnchorGo env ts
  simp only [findContentEditor]
  split
  · simp [hd]
  · split
    · simp [List.count_append, hd, ha]
    · split
      · split
        · simp [List.count_append, List.count_cons, hd, ha]
        · split
          · split <;> simp [List.count_append, List.count_cons, hd, ha]
          · simp [List.count_append, List.count_cons, hd, ha]
      · simp [List.count_append, hd, ha]

/-- C9: the focus-order fallback of the content-editor resolution
focuses the title anchor, advances focus once, adopts the newly focused
element only when its tag kind is not input; when it still is input it
advances exactly once more and then gives up, so at most two focus
advances ever happen in one resolution attempt. -/
theorem c9_focus_fallback (ts : List Str) (env : FindEnv) (a : Element)
    (hd : (findDirectGo env directEditorSelectors).1 = none)
    (ha : (findAnchorGo env ts).1 = some a)
    (hf : env.focusOk = true) :
    (∀ ts2 env2, ((findContentEditor ts2 env2).2).count Ev.keyTab ≤ 2)
    ∧ (lowerStr env.active1.tagName ≠ "input".data →
        (findContentEditor ts env).1 = some env.active1
        ∧ ((findContentEditor ts env).2).count Ev.keyTab = 1)
    ∧ (lowerStr env.active1.tagName = "input".data → env.tab2Ok = true →
        lowerStr env.active2.tagName ≠ "input".data →
        (findContentEditor ts env).1 = some env.active2
        ∧ ((findContentEditor ts env).2).count Ev.keyTab = 2)
    ∧ (lowerStr env.active1.tagName = "input".data → env.tab2Ok = true →
        lowerStr env.active2.tagName = "input".data →
        (findContentEditor ts env).1 = none
        ∧ ((findContentEditor ts env).2).count Ev.keyTab = 2) := by
  have hdc := count_keyTab_findDirectGo env directEditorSelectors
  have hac := count_keyTab_findAnchorGo env ts
  refine ⟨fun ts2 env2 => findContentEditor_tab_bound ts2 env2, ?_, ?_, ?_⟩
  · intro h1
    simp only [findContentEditor, hd, ha, hf, if_true]
    rw [if_pos h1]
    refine ⟨rfl, ?_⟩
    simp [List.count_append, List.count_cons, hdc, hac]
  · intro h1 ht h2
    simp only [findContentEditor, hd, ha, hf, if_true]
    rw [if_neg (not_not_intro h1), if_pos ht, if_pos h2]
    refine ⟨rfl, ?_⟩
    simp [List.count_append, List.count_cons, hdc, hac]
  · intro h1 ht h2
    simp only [findContentEditor, hd, ha, hf, if_true]
    rw [if_neg (not_not_intro h1), if_pos ht, if_neg (not_not_intro h2)]
    refine ⟨rfl, ?_⟩
    simp [List.count_append, List.count_cons, hdc, hac]

/-- Environment for the C9 witness: no direct editor hit, a displayed
anchor behind one title selector, and a non-input element focused after
the first TAB. -/
def envC9 : FindEnv :=
  { titleFindEls := fun _ => [{}],
    active1 := { tagName := "div".data } }

/-- Witness for C9 at a concrete page: the first TAB lands on a div, it
is adopted, and exactly one TAB was sent. -/
theorem c9_focus_fallback_witness :
    (findContentEditor ["t".data] envC9).1 = some envC9.active1
    ∧ ((findContentEditor ["t".data] envC9).2).count Ev.keyTab = 1 :=
  (c9_focus_fallback ["t".data] envC9 {} (by decide) (by decide) rfl).2.1 (by decide)

/-- The spec-side reading of title resolution: the first candidate whose
clickable wait yields an enabled element. -/
def firstWaitEnabled (env : FindEnv) (ss : List Str) : Option Element :=
  ss.findSome? (fun s =>
    match env.titleWait s with
    | some e => if e.enabled then some e else none
    | none => none)

/-- The spec-side reading of the direct editor resolution: the first
candidate whose lookup yields a displayed element, enabled or not. -/
def firstDirectDisplayed (env : FindEnv) (ss : List Str) : Option Element :=
  ss.findSome? (fun s =>
    match env.editorDirect s with
    | some e => if e.displayed then some e else none
    | none => none)

/-- The title loop computes exactly the first enabled wait hit. -/
theorem findTitleGo_eq_firstWait (env : FindEnv) :
    ∀ ss, (findTitleGo env ss).1 = firstWaitEnabled env ss := by
  intro ss
  induction ss with
  | nil => simp [findTitleGo, firstWaitEnabled]
  | cons s rest ih =>
      simp only [findTitleGo, firstWaitEnabled, List.findSome?_cons]
      cases h : env.titleWait s with
      | some el =>
          by_cases hd : el.enabled = true
          · simp [hd]
          · simp only [hd, if_false]
            simpa [firstWaitEnabled] using ih
      | none => simpa [firstWaitEnabled] using ih

/-- The direct editor loop computes exactly the first displayed hit. -/
theorem findDirectGo_eq_firstDisplayed (env : FindEnv) :
    ∀ ss, (findDirectGo env ss).1 = firstDirectDisplayed env ss := by
  intro ss
  induction ss with
  | nil => simp [findDirectGo, firstDirectDisplayed]
  | cons s rest ih =>
      simp only [findDirectGo, firstDirectDisplayed, List.findSome?_cons]
      cases h : env.editorDirect s with
      | some el =>
          by_cases hd : el.displayed = true
          · simp [hd]
          · simp only [hd, if_false]
            simpa [firstDirectDisplayed] using ih
      | none => simpa [firstDirectDisplayed] using ih

/-- A hit of the title loop came from the wait and is enabled. -/
theorem findTitleGo_some (env : FindEnv) :
    ∀ ss e, (findTitleGo env ss).1 = some e →
      ∃ s, env.titleWait s = some e ∧ e.enabled = true := by
  intro ss
  induction ss with
  | nil => intro e he; simp [findTitleGo] at he
  | cons s rest ih =>
      intro e he
      simp only [findTitleGo] at he
      cases h : env.titleWait s with
      | some el =>
          rw [h] at he
          by_cases hd : el.enabled = true
          · simp [hd] at he
            exact ⟨s, by rw [h, he], he ▸ hd⟩
          · simp [hd] at he
            exact ih e he
      | none =>
          rw [h] at he
          simp at he
          exact ih e he

/-- The element A returned in the C8 counterexample: displayed but
disabled. -/
def elemA : Element := { enabled := false }

/-- The element B of the C8 counterexample: displayed and enabled. -/
def elemB : Element := {}

/-- Environment for the C8 counterexample: candidate A (displayed,
disabled) behind the first direct editor selector, candidate B
(displayed, enabled) behind the second, nothing else. -/
def envC8 : FindEnv :=
  { editorDirect := fun s =>
      if s = "[contenteditable=\x27true\x27]".data then some elemA
      else if s = ".ql-editor".data then some elemB else none }

/-- Counterexample to C8 as stated: among the content-editor candidates
only B is displayed and enabled, yet resolution returns A, because the
direct editor loop never consults the enabled state. -/
theorem c8_counterexample :
    elemA.displayed = true ∧ elemA.enabled = false
    ∧ elemB.displayed = true ∧ elemB.enabled = true
    ∧ (findContentEditor [] envC8).1 = some elemA
    ∧ elemA ≠ elemB := by
  decide

/-- C8 amended: title resolution returns the first candidate whose
clickable wait hits an enabled element, and under the Selenium clickable
guarantee that element is displayed and enabled; content-editor direct
resolution returns the first candidate that is displayed, with no
enabled check; and when no candidate qualifies and the fallback also
fails, the fill operation fails with a publish error naming the step of
that role. -/
theorem c8_amended :
    (∀ ss env, (findTitleInput ss env).1 = firstWaitEnabled env ss)
    ∧ (∀ ss env e,
        (∀ s x, env.titleWait s = some x → x.displayed = true ∧ x.enabled = true) →
        (findTitleInput ss env).1 = some e → e.displayed = true ∧ e.enabled = true)
    ∧ (∀ env, (findDirectGo env directEditorSelectors).1 =
        firstDirectDisplayed env directEditorSelectors)
    ∧ (∀ cfg ts content fenv cenv, validateContent cfg content = none →
        (findContentEditor ts fenv).1 = none →
        (fillContent cfg ts content fenv cenv).1 =
          .error ⟨"未找到内容编辑器".data, "内容填写".data⟩)
    ∧ (∀ cfg ts cleanText title fenv tenv, validateTitle cfg title = none →
        (findTitleInput ts fenv).1 = none →
        (fillTitle cfg ts cleanText title fenv tenv).1 =
          .error ⟨"未找到标题输入框".data, "标题填写".data⟩) := by
  refine ⟨fun ss env => findTitleGo_eq_firstWait env ss, ?_, ?_, ?_, ?_⟩
  · intro ss env e hwf he
    rcases findTitleGo_some env ss e he with ⟨s, hs, _⟩
    exact hwf s e hs
  · intro env
    exact findDirectGo_eq_firstDisplayed env directEditorSelectors
  · intro cfg ts content fenv cenv hv hfind
    simp [fillContent, hv, hfind]
  · intro cfg ts cleanText title fenv tenv hv hfind
    simp only [findTitleInput] at hfind
    simp [fillTitle, findTitleInput, hv, hfind]

/-- Environment for the C8 witness: every title wait yields the default
displayed-and-enabled element. -/
def envTitleW : FindEnv := { titleWait := fun _ => some {} }

/-- Witness for C8 amended at concrete pages: the title loop agrees with
first-enabled-hit selection on a one-candidate page, the returned
element is displayed and enabled, and a page with no editor candidate at
all makes fill_content fail with the step name of the editor role. -/
theorem c8_amended_witness :
    (findTitleInput ["t".data] envTitleW).1 = firstWaitEnabled envTitleW ["t".data]
    ∧ (({} : Element).displayed = true ∧ ({} : Element).enabled = true)
    ∧ (fillContent ⟨20, 1000, 10, 10⟩ [] "内容".data {} {}).1 =
        .error ⟨"未找到内容编辑器".data, "内容填写".data⟩ := by
  refine ⟨c8_amended.1 ["t".data] envTitleW, ?_, ?_⟩
  · refine c8_amended.2.1 ["t".data] envTitleW {} (fun s x hx => ?_) (by decide)
    have h2 : ({} : Element) = x := Option.some.inj hx
    subst h2
    exact ⟨rfl, rfl⟩
  · exact c8_amended.2.2.2.1 ⟨20, 1000, 10, 10⟩ [] "内容".data {} {} (by decide) (by decide)

/-- C3 amended: the effective fill_topics never raises, and its result
is False exactly when there were topics to fill and the content editor
could not be found; every other internal failure, modelled as a driver
operation raising mid-way, is swallowed by the except clause which
returns True, so topic tagging can never abort an otherwise-successful
publish, but a failed tagging run does not report False either. -/
theorem c3_amended (ts : List Str) (topics : List Str) (env : TopicsEnv) :
    (fillTopics ts topics env).1 = false ↔
      topics ≠ [] ∧ (findContentEditor ts env.find).1 = none := by
  by_cases ht : topics = []
  · simp [fillTopics, ht]
  · simp only [fillTopics, if_neg ht]
    cases h : (findContentEditor ts env.find).1 with
    | none => simp [ht]
    | some e =>
        cases hk : env.failK with
        | none => simp
        | some k =>
            split
            · simp_all
            · split
              · simp
                split <;> rfl
              · simp

/-- Environment for the C3 counterexample: the editor is found behind a
direct selector, and the very first driver operation afterwards (the
click on the editor) raises. -/
def envC3 : TopicsEnv :=
  { find := { editorDirect := fun s => if s = ".ql-editor".data then some {} else none },
    failK := some 0 }

/-- Counterexample to C3 as stated: an internal failure (the click on
the found editor raises, so no cursor move, Enter or topic keystroke is
ever performed) returns True, not False. -/
theorem c3_counterexample :
    (fillTopics [] ["话题".data] envC3).1 = true
    ∧ (fillTopics [] ["话题".data] envC3).2 =
        [.findEls "[contenteditable=\x27true\x27]".data, .findEls ".ql-editor".data]
    ∧ (fillTopics [] ["话题".data] envC3).2.count Ev.keyEnter = 0 := by
  decide

/-- C7: with a readable JSON payload that has a title and a body, every
media path that does not exist on disk is dropped with a warning;
when no valid path remains the task stops with only warnings, never
constructing the client or reaching the publish call that would launch
the browser; when at least one valid path remains the publish call is
made with exactly the surviving paths. -/
theorem c7_media_filter (env : CliEnv) (d : CliData) (imgs : List Str)
    (hj : env.jsonExists = true) (hd : env.jsonData = some d)
    (ht : d.title ≠ []) (hc : d.content ≠ []) :
    ((imgs.filter (fun p => env.pathExists p)).isEmpty = true →
        ∀ e ∈ publishTask env imgs, ∃ m, e = Ev.warn m)
    ∧ ((imgs.filter (fun p => env.pathExists p)).isEmpty = false →
        env.clientInitOk = true →
        Ev.publishAttempt (imgs.filter (fun p => env.pathExists p)) ∈ publishTask env imgs)
    ∧ (∀ p ∈ imgs, env.pathExists p = false →
        Ev.warn ("图片不存在，跳过: ".data ++ p) ∈ publishTask env imgs) := by
  have hstep : publishTask env imgs =
      (if (imgs.filter (fun p => env.pathExists p)).isEmpty then
        ((imgs.filter (fun p => !env.pathExists p)).map
          (fun p => Ev.warn ("图片不存在，跳过: ".data ++ p))) ++ [.warn "没有有效的图片可发布".data]
      else if !env.clientInitOk then
        ((imgs.filter (fun p => !env.pathExists p)).map
          (fun p => Ev.warn ("图片不存在，跳过: ".data ++ p))) ++ [.warn "客户端初始化失败".data]
      else
        ((imgs.filter (fun p => !env.pathExists p)).map
          (fun p => Ev.warn ("图片不存在，跳过: ".data ++ p)))
          ++ [.initClient, .publishAttempt (imgs.filter (fun p => env.pathExists p))]) := by
    simp [publishTask, hj, hd, ht, hc]
  refine ⟨?_, ?_, ?_⟩
  · intro hvalid e he
    rw [hstep, if_pos hvalid] at he
    rcases List.mem_append.mp he with h1 | h1
    · rcases List.mem_map.mp h1 with ⟨p, _, rfl⟩
      exact ⟨_, rfl⟩
    · simp at h1
      exact ⟨_, h1⟩
  · intro hvalid hinit
    rw [hstep, if_neg (by simp [hvalid]), if_neg (by simp [hinit])]
    exact List.mem_append_right _ (by simp)
  · intro p hp hpe
    have hmem : p ∈ imgs.filter (fun q => !env.pathExists q) :=
      List.mem_filter.mpr ⟨hp, by simp [hpe]⟩
    have hw : Ev.warn ("图片不存在，跳过: ".data ++ p) ∈
        (imgs.filter (fun q => !env.pathExists q)).map
          (fun q => Ev.warn ("图片不存在，跳过: ".data ++ q)) :=
      List.mem_map_of_mem _ hmem
    rw [hstep]
    split
    · exact List.mem_append_left _ hw
    · split
      · exact List.mem_append_left _ hw
      · exact List.mem_append_left _ hw

/-- Environment for the C7 witness: a valid payload, and of the three
image paths only b.png exists on disk. -/
def envC7 : CliEnv :=
  { jsonData := some { title := "标题".data, content := "正文".data },
    pathExists := fun p => p = "b.png".data }

/-- Witness for C7: with one existing path out of three, the publish
call proceeds with exactly that path, and the missing first path got its
warning. -/
theorem c7_media_filter_witness :
    Ev.publishAttempt ["b.png".data] ∈
      publishTask envC7 ["a.png".data, "b.png".data, "c.png".data]
    ∧ Ev.warn ("图片不存在，跳过: ".data ++ "a.png".data) ∈
      publishTask envC7 ["a.png".data, "b.png".data, "c.png".data] := by
  have h := c7_media_filter envC7 { title := "标题".data, content := "正文".data }
      ["a.png".data, "b.png".data, "c.png".data] rfl rfl (by decide) (by decide)
  refine ⟨?_, ?_⟩
  · have h2 := h.2.1 (by decide) rfl
    have hf : (["a.png".data, "b.png".data, "c.png".data].filter
        (fun p => envC7.pathExists p)) = ["b.png".data] := by decide
    rw [hf] at h2
    exact h2
  · exact h.2.2 "a.png".data (by decide) (by decide)

/-- The paragraph loop never closes the driver. -/
theorem noClose_paraOps : ∀ ps, Ev.closeDriver ∉ paraOps ps := by
  intro ps
  induction ps with
  | nil => simp [paraOps]
  | cons p rest ih =>
      cases rest with
      | nil =>
          simp only [paraOps]
          split <;> simp
      | cons q rs =>
          simp only [paraOps]
          split <;> simp_all

/-- The topic loop never closes the driver. -/
theorem noClose_topicsOps : ∀ ts, Ev.closeDriver ∉ topicsOps ts := by
  intro ts
  induction ts with
  | nil => simp [topicsOps]
  | cons t rest ih =>
      simp only [topicsOps, topicOps1]
      split <;> simp_all

/-- The content fill never closes the driver. -/
theorem noClose_performContentFill (arg : ContentArg) (env : ContentFillEnv) :
    Ev.closeDriver ∉ (performContentFill arg env).2 := by
  have h : Ev.closeDriver ∉
      ([Ev.clickEl, Ev.selectAll, Ev.keyDelete] ++ paraOps (paragraphsOf arg) : Trace) := by
    simp [noClose_paraOps (paragraphsOf arg)]
  simp only [performContentFill]
  split
  · split
    · intro hm
      exact h (List.take_subset _ _ hm)
    · exact h
  · exact h

/-- The title fill never closes the driver. -/
theorem noClose_performTitleFill (cleanText : Str → Str) (title : Str) (env : TitleFillEnv) :
    Ev.closeDriver ∉ (performTitleFill cleanText title env).2 := by
  simp only [performTitleFill]
  split
  · split <;> simp
  · simp

/-- The title finder never closes the driver. -/
theorem noClose_findTitleInput (ts : List Str) (env : FindEnv) :
    Ev.closeDriver ∉ (findTitleInput ts env).2 :=
  not_mem_of_events (events_findTitleGo env ts) (fun _ h => by cases h)

/-- The editor finder never closes the driver. -/
theorem noClose_findContentEditor (ts : List Str) (env : FindEnv) :
    Ev.closeDriver ∉ (findContentEditor ts env).2 := by
  have h1 : Ev.closeDriver ∉ (findDirectGo env directEditorSelectors).2 :=
    not_mem_of_events (events_findDirectGo env directEditorSelectors) (fun _ h => by cases h)
  have h2 : Ev.closeDriver ∉ (findAnchorGo env ts).2 :=
    not_mem_of_events (events_findAnchorGo env ts) (fun _ h => by cases h)
  simp only [findContentEditor]
  split
  · exact h1
  · split
    · simp [List.mem_append, h1, h2]
    · split
      · split
        · simp [List.mem_append, h1, h2]
        · split
          · split <;> simp [List.mem_append, h1, h2]
          · simp [List.mem_append, h1, h2]
      · simp [List.mem_append, h1, h2]

/-- fill_title never closes the driver. -/
theorem noClose_fillTitle (cfg : XHSConfigT) (ts : List Str) (cleanText : Str → Str)
    (title : Str) (fenv : FindEnv) (tenv : TitleFillEnv) :
    Ev.closeDriver ∉ (fillTitle cfg ts cleanText title fenv tenv).2 := by
  have h1 := noClose_findTitleInput ts fenv
  have h2 := noClose_performTitleFill cleanText title tenv
  simp only [fillTitle]
  split
  · simp
  · split
    · exact h1
    · simp [List.mem_append, h1, h2]

/-- fill_content never closes the driver. -/
theorem noClose_fillContent (cfg : XHSConfigT) (ts : List Str) (content : Str)
    (fenv : FindEnv) (cenv : ContentFillEnv) :
    Ev.closeDriver ∉ (fillContent cfg ts content fenv cenv).2 := by
  have h1 := noClose_findContentEditor ts fenv
  have h2 := noClose_performContentFill (.str content) cenv
  simp only [fillContent]
  split
  · simp
  · split
    · exact h1
    · simp [List.mem_append, h1, h2]

/-- fill_topics never closes the driver. -/
theorem noClose_fillTopics (ts topics : List Str) (env : TopicsEnv) :
    Ev.closeDriver ∉ (fillTopics ts topics env).2 := by
  have h1 := noClose_findContentEditor ts env.find
  have hops : Ev.closeDriver ∉
      ([Ev.clickEl, Ev.execJS "moveCursorEnd".data, Ev.keyEnter, Ev.keyEnter]
        ++ topicsOps topics : Trace) := by
    simp [noClose_topicsOps topics]
  simp only [fillTopics]
  split
  · simp
  · split
    · exact h1
    · split
      · split
        · intro hm
          rcases List.mem_append.mp hm with h | h
          · exact h1 h
          · exact hops (List.take_subset _ _ h)
        · simp [List.mem_append, h1, noClose_topicsOps topics]
      · simp [List.mem_append, h1, noClose_topicsOps topics]

/-- _fill_note_content never closes the driver. -/
theorem noClose_fillNoteContent (cfg : XHSConfigT) (ts : List Str) (cleanText : Str → Str)
    (note : Note) (fenv : FindEnv) (tenv : TitleFillEnv) (cenv : ContentFillEnv)
    (topEnv : TopicsEnv) :
    Ev.closeDriver ∉ (fillNoteContent cfg ts cleanText note fenv tenv cenv topEnv).2 := by
  have hT := noClose_fillTitle cfg ts cleanText note.title fenv tenv
  have hC := noClose_fillContent cfg ts note.content fenv cenv
  have hP := noClose_fillTopics ts note.topics topEnv
  simp only [fillNoteContent]
  split
  · exact hT
  · exact hT
  · split
    · simp [List.mem_append, hT, hC]
    · simp [List.mem_append, hT, hC]
    · split
      · simp [List.mem_append, hT, hC]
      · simp [List.mem_append, hT, hC, hP]

/-- The mode switch never closes the driver. -/
theorem noClose_switchPublishMode (note : Note) (env : ModeEnv) :
    Ev.closeDriver ∉ switchPublishMode note env := by
  simp only [switchPublishMode]
  split
  · split
    · split <;> simp
    · simp
  · split
    · split
      · split
        · split <;> simp
        · simp
      · simp
    · simp

/-- Every event of the upload-selector loop is an element lookup. -/
theorem events_uploadScan (env : UploadEnv) :
    ∀ ss, ∀ e ∈ (uploadScan env ss).2, ∃ s, e = Ev.findEls s := by
  intro ss
  induction ss with
  | nil => intro e he; simp [uploadScan] at he
  | cons s rest ih =>
      intro e he
      simp only [uploadScan] at he
      cases h : (env.findBySel s).find? (fun el => el.displayed) with
      | some el =>
          rw [h] at he
          simp at he
          exact ⟨s, he⟩
      | none =>
          rw [h] at he
          simp at he
          rcases he with he | he
          · exact ⟨s, he⟩
          · exact ih e he

/-- The file upload never closes the driver. -/
theorem noClose_handleFileUpload (note : Note) (env : UploadEnv) :
    Ev.closeDriver ∉ handleFileUpload note env := by
  have h1 : Ev.closeDriver ∉ (uploadScan env uploadSelectors).2 :=
    not_mem_of_events (events_uploadScan env uploadSelectors) (fun _ h => by cases h)
  simp only [handleFileUpload]
  split
  · simp
  · split
    · split <;> simp [List.mem_append, h1]
    · split
      · simp [List.mem_append, h1]
      · split <;> simp [List.mem_append, h1]

/-- Every event of the submit-button loop is an element lookup. -/
theorem events_submitScanGo (env : SubmitEnv) :
    ∀ cur ss, ∀ e ∈ (submitScanGo env cur ss).2, ∃ s, e = Ev.findEls s := by
  intro cur ss
  induction ss generalizing cur with
  | nil => intro e he; simp [submitScanGo] at he
  | cons s rest ih =>
      intro e he
      simp only [submitScanGo] at he
      cases h : env.findSel s with
      | none =>
          rw [h] at he
          simp at he
          rcases he with he | he
          · exact ⟨s, he⟩
          · exact ih cur e he
      | some el =>
          rw [h] at he
          by_cases hd : (el.displayed && el.enabled) = true
          · simp [hd] at he
            exact ⟨s, he⟩
          · simp [hd] at he
            rcases he with he | he
            · exact ⟨s, he⟩
            · exact ih (some el) e he

/-- The submission never closes the driver. -/
theorem noClose_submitNote (note : Note) (env : SubmitEnv) :
    Ev.closeDriver ∉ (submitNote note env).2 := by
  have h1 : Ev.closeDriver ∉ (submitScanGo env none publishSelectors).2 :=
    not_mem_of_events (events_submitScanGo env none publishSelectors) (fun _ h => by cases h)
  simp only [submitNote]
  split
  · exact h1
  · split
    · simp [List.mem_append, h1]
    · exact h1

/-- The publish process between session open and session close never
closes the driver itself. -/
theorem noClose_publishNoteProcess (cfg : XHSConfigT) (ts : List Str)
    (cleanText : Str → Str) (note : Note) (env : ProcEnv) :
    Ev.closeDriver ∉ (publishNoteProcess cfg ts cleanText note env).2 := by
  have hm := noClose_switchPublishMode note env.mode
  have hu := noClose_handleFileUpload note env.upload
  have hf := noClose_fillNoteContent cfg ts cleanText note env.find env.titleFill
      env.contentFill ⟨env.find, env.topicsFailK⟩
  have hs := noClose_submitNote note env.submit
  simp only [publishNoteProcess]
  split
  · split
    · split
      · simp [List.mem_append, hm, hu, hf]
      · split
        · simp [List.mem_append, hm, hu, hf, hs]
        · simp [List.mem_append, hm, hu, hf, hs]
    · simp
  · simp

/-- C5: every publish attempt, whatever state it fails in and whether or
not an error is raised, emits exactly one session-closed effect: the
driver close of the finally block runs once on every exit path and
nothing inside the process ever closes the driver. -/
theorem c5_exactly_one_close (cfg : XHSConfigT) (ts : List Str) (cleanText : Str → Str)
    (note : Note) (env : ClientEnv) :
    ((publishNote cfg ts cleanText note env).2).count Ev.closeDriver = 1 := by
  have h0 : ([Ev.createDriver, Ev.navCreatorCenter, Ev.loadCookies] : Trace).count
      Ev.closeDriver = 0 := by decide
  have h1 : ([Ev.closeDriver] : Trace).count Ev.closeDriver = 1 := by decide
  simp only [publishNote]
  split
  · split
    · split
      · have h := noClose_publishNoteProcess cfg ts cleanText note env.proc
        simp [List.count_append, h0, h1, List.count_eq_zero.mpr h]
      · decide
    · decide
  · decide

/-- Configuration for the C1 analysis. -/
def cfgC1 : XHSConfigT := ⟨20, 1000, 10, 10⟩

/-- A note with an empty title for the C1 counterexample. -/
def noteC1 : Note := { title := [], content := "正文".data }

/-- Counterexample to C1 as stated: publishing a note with an empty
title does end in the title-validation PublishError, but the very first
effect of publish_note is the driver creation; the browser session
exists before the validation error is raised, contradicting the claimed
no-driver-before-validation ordering. -/
theorem c1_counterexample :
    (publishNote cfgC1 [] id noteC1 {}).1 =
      .error ⟨"标题不能为空".data, "标题验证".data⟩
    ∧ ((publishNote cfgC1 [] id noteC1 {}).2).head? = some Ev.createDriver
    ∧ Ev.createDriver ∈ (publishNote cfgC1 [] id noteC1 {}).2 := by
  refine ⟨rfl, rfl, ?_⟩
  decide

/-- C1 corrected: for a note with an empty title or an empty body, and a
session that reaches the fill stage, publish_note fails with the
corresponding validation PublishError; but the browser driver is created
first (it is the head of the event trace) and is closed again as the
last effect before the call returns. -/
theorem c1_amended (cfg : XHSConfigT) (ts : List Str) (cleanText : Str → Str)
    (note : Note) (env : ClientEnv)
    (hc : env.createOk = true) (hn : env.navOk = true) (hk : env.cookiesOk = true)
    (hg : env.proc.gotoOk = true) (hu : env.proc.urlHasPublish = true) :
    (note.title = [] →
      (publishNote cfg ts cleanText note env).1 =
        .error ⟨"标题不能为空".data, "标题验证".data⟩)
    ∧ (note.content = [] →
        (fillTitle cfg ts cleanText note.title env.proc.find env.proc.titleFill).1 = .ok true →
        (publishNote cfg ts cleanText note env).1 =
          .error ⟨"内容不能为空".data, "内容验证".data⟩)
    ∧ ((publishNote cfg ts cleanText note env).2).head? = some Ev.createDriver
    ∧ ((publishNote cfg ts cleanText note env).2).getLast? = some Ev.closeDriver := by
  refine ⟨?_, ?_, ?_, ?_⟩
  · intro h
    simp [publishNote, publishNoteProcess, fillNoteContent, fillTitle, validateTitle,
      hc, hn, hk, hg, hu, h]
  · intro h hft
    simp only [publishNote, hc, hn, hk, if_true, publishNoteProcess, hg, hu,
      fillNoteContent]
    rw [hft]
    simp [fillContent, validateContent, h]
  · simp [publishNote, hc, hn, hk]
  · simp only [publishNote, hc, hn, hk, if_true]
    exact List.getLast?_concat _

/-- Witness for C1 amended: the concrete empty-title note from the
counterexample environment indeed ends in the title validation error
with the driver created first and closed last. -/
theorem c1_amended_witness :
    (publishNote cfgC1 [] id noteC1 {}).1 =
      .error ⟨"标题不能为空".data, "标题验证".data⟩
    ∧ ((publishNote cfgC1 [] id noteC1 {}).2).head? = some Ev.createDriver
    ∧ ((publishNote cfgC1 [] id noteC1 {}).2).getLast? = some Ev.closeDriver := by
  have h := c1_amended cfgC1 [] id noteC1 {} rfl rfl rfl rfl rfl
  exact ⟨h.1 rfl, h.2.2.1, h.2.2.2⟩
